import Mathlib

/-!
Crash reporting of `hub` (`github/crash_report.go`).

A shallow embedding of the crash-report flow: the stack canonicalisation
(`formatStack`), the preference lookup (`reportCrashConfig`), the consent
state machine (`reportCrash`), the report composition (`reportTitleAndBody`,
`report`) and the recovery boundary (`CaptureCrash`).

Go strings and byte slices that hold stack text are lists of bytes; every
interaction with the outside (environment, git configuration, standard
streams, editor, issue tracker, process exit) is recorded in a trace.
-/

namespace CrashReport

/-! ## Byte-slice helpers of the Go standard library -/

/-- A Go byte. -/
abbrev Byte := UInt8

/-- The null byte, the only member of the cutset `"\x00"`. -/
def nul : Byte := 0

/-- The line feed byte, the separator `"\n"`. -/
def lf : Byte := 10

/-- `bytes.trimLeftByte`: drop the leading bytes equal to `c`. -/
def trimLeftByte (s : List Byte) (c : Byte) : List Byte :=
  s.dropWhile (fun b => b == c)

/-- `bytes.trimRightByte`: drop the trailing bytes equal to `c`. -/
def trimRightByte (s : List Byte) (c : Byte) : List Byte :=
  (s.reverse.dropWhile (fun b => b == c)).reverse

/-- `bytes.Trim(s, cutset)` for a cutset of one ASCII byte `c`. -/
def bytesTrim (s : List Byte) (c : Byte) : List Byte :=
  trimLeftByte (trimRightByte s c) c

/-- `strings.Split(s, sep)` for a separator of one byte: the pieces between
the occurrences of `sep`; never empty. -/
def stringsSplit (sep : Byte) : List Byte → List (List Byte)
  | [] => [[]]
  | b :: rest =>
    if b = sep then [] :: stringsSplit sep rest
    else
      match stringsSplit sep rest with
      | [] => [[b]]
      | piece :: pieces => (b :: piece) :: pieces

/-- `strings.Join(elems, sep)` for a separator of one byte. -/
def stringsJoin (sep : Byte) : List (List Byte) → List Byte
  | [] => []
  | [e] => e
  | e :: f :: rest => e ++ sep :: stringsJoin sep (f :: rest)

/-- The slice expression `s[lo:hi]`; `none` is the run-time panic
"slice bounds out of range". -/
def sliceRange {α : Type} (s : List α) (lo hi : Nat) : Option (List α) :=
  if lo ≤ hi ∧ hi ≤ s.length then some ((s.take hi).drop lo) else none

/-- The slice expression `s[lo:]`; `none` is the run-time panic
"slice bounds out of range". -/
def sliceFrom {α : Type} (s : List α) (lo : Nat) : Option (List α) :=
  if lo ≤ s.length then some (s.drop lo) else none

/-! ## `formatStack` -/

/-- `formatStack`: trim the null padding, split into lines, keep line 0 and
the lines from index 5 on, join again. `none` is a run-time panic. -/
def formatStack (buf : List Byte) : Option (List Byte) := do
  let buf := bytesTrim buf nul
  let stack := stringsSplit lf buf
  let head ← sliceRange stack 0 1
  let rest ← sliceFrom stack 5
  let stack := head ++ rest
  pure (stringsJoin lf stack)

/-! ## Values, events and the world -/

/-- A Go `error` value: the name of its dynamic type (`reflect.TypeOf`) and
its display text (`Error()`). -/
structure GoError where
  typeName : String
  text : String
  deriving DecidableEq, Repr

/-- `errors.New(text)`. -/
def errorsNew (text : String) : GoError :=
  { typeName := "*errors.errorString", text := text }

/-- A value handed back by `recover()` when it is not nil. -/
inductive Recovered where
  | error (err : GoError)
  | string (s : String)
  | int (n : Int)
  | other (typeName : String)
  deriving DecidableEq, Repr

/-- The project an issue is filed under. -/
structure Project where
  Owner : String
  Name : String
  Host : String
  deriving DecidableEq, Repr

/-- The created issue, as far as this flow reads it. -/
structure Issue where
  HTMLURL : String
  deriving DecidableEq, Repr

/-- The editor handle returned by `NewEditor`. -/
structure Editor where
  file : String
  topic : String
  message : List Byte
  deriving DecidableEq, Repr

/-- One interaction with the outside, in the order of the trace.
`reportCalled` marks the entry into `report` and is not an effect. -/
inductive Event where
  | runtimeStack (size : Nat)
  | getenv (key : String)
  | gitGlobalConfig (name : String)
  | gitSetGlobalConfig (name value : String)
  | printfError (err : GoError)
  | printlnStack (stack : List Byte)
  | print (text : String)
  | scan
  | reportCalled (err : GoError) (stack : List Byte)
  | newEditor (file topic : String) (message : List Byte)
  | editTitleAndBody
  | deleteFile
  | createIssue (project : Project) (title body : String) (labels : List String)
  | printlnURL (url : String)
  | checkFailed (err : GoError)
  deriving DecidableEq, Repr

/-- What the flow reads from its surroundings, the two stores it can reach,
and the trace of what it did. -/
structure World where
  /-- the process environment -/
  environ : List (String × String)
  /-- the global git configuration -/
  gitGlobal : List (String × String)
  /-- the package constant `GitHubHost`, declared outside this file -/
  GitHubHost : String
  /-- `runtime.GOOS` and `runtime.GOARCH` -/
  GOOS : String
  GOARCH : String
  /-- the text `runtime.Stack` formats for the calling goroutine -/
  goroutineStack : List Byte
  /-- the tokens waiting on standard input -/
  stdin : List String
  /-- the error of `NewEditor`, if it fails -/
  newEditorError : Option GoError
  /-- what `EditTitleAndBody` returns -/
  editResult : String × String × Option GoError
  /-- what `CreateIssue` returns -/
  createIssueResult : Except GoError Issue
  /-- the interactions so far, oldest first -/
  trace : List Event

/-- How a call ends: it returns a value, the process exits (`os.Exit`), or
the goroutine panics. -/
inductive Outcome (α : Type) where
  | ret (value : α)
  | exit (code : Int)
  | panic
  deriving DecidableEq, Repr

/-- A Go function body: from a world to how it ends and the world then. -/
def Prog (α : Type) : Type := World → Outcome α × World

namespace Prog

/-- Return normally. -/
def ret {α : Type} (a : α) : Prog α := fun w => (Outcome.ret a, w)

/-- Sequencing: what follows runs only after a normal return. -/
def andThen {α β : Type} (m : Prog α) (f : α → Prog β) : Prog β := fun w =>
  match m w with
  | (Outcome.ret a, w1) => f a w1
  | (Outcome.exit code, w1) => (Outcome.exit code, w1)
  | (Outcome.panic, w1) => (Outcome.panic, w1)

end Prog

instance : Monad Prog where
  pure := Prog.ret
  bind := Prog.andThen

/-- Record one interaction. -/
def emit (ev : Event) : Prog Unit := fun w =>
  (Outcome.ret (), { w with trace := w.trace ++ [ev] })

/-- `os.Exit(code)`. -/
def osExit {α : Type} (code : Int) : Prog α := fun w => (Outcome.exit code, w)

/-- A run-time panic. -/
def goPanic {α : Type} : Prog α := fun w => (Outcome.panic, w)

/-- A value whose computation may panic. -/
def orPanic {α : Type} : Option α → Prog α
  | some a => pure a
  | none => goPanic

/-- `defer d` around `body`: `d` runs when `body` returns or panics, and not
when the process exits. -/
def withDefer {α : Type} (d : Prog Unit) (body : Prog α) : Prog α := fun w =>
  match body w with
  | (Outcome.ret a, w1) =>
    match d w1 with
    | (Outcome.ret _, w2) => (Outcome.ret a, w2)
    | (Outcome.exit code, w2) => (Outcome.exit code, w2)
    | (Outcome.panic, w2) => (Outcome.panic, w2)
  | (Outcome.exit code, w1) => (Outcome.exit code, w1)
  | (Outcome.panic, w1) =>
    match d w1 with
    | (Outcome.exit code, w2) => (Outcome.exit code, w2)
    | (_, w2) => (Outcome.panic, w2)

/-! ## Collaborators -/

/-- The UTF-8 bytes of a string. -/
def goBytes (s : String) : List Byte := s.toUTF8.data.toList

/-- `make([]byte, n)`. -/
def makeBytes (n : Nat) : List Byte := List.replicate n nul

/-- `runtime.Stack(buf, false)`: the stack text is written over the start of
`buf`, cut at the length of `buf`. -/
def runtimeStack (buf : List Byte) : Prog (List Byte) := fun w =>
  (Outcome.ret (w.goroutineStack.take buf.length ++ buf.drop w.goroutineStack.length),
    { w with trace := w.trace ++ [Event.runtimeStack buf.length] })

/-- `os.Getenv(key)`: the value, or the empty string when unset. -/
def osGetenv (key : String) : Prog String := fun w =>
  (Outcome.ret ((w.environ.lookup key).getD ""), { w with trace := w.trace ++ [Event.getenv key] })

/-- Modelled from the spec: `git.GlobalConfig` (package `git`, not among the
sources) reads the persisted global configuration value under a key; an
absent key gives the empty string and an error. -/
def gitGlobalConfig (name : String) : Prog (String × Option GoError) := fun w =>
  (match w.gitGlobal.lookup name with
    | some value => Outcome.ret (value, none)
    | none => Outcome.ret ("", some (errorsNew ("Unknown config " ++ name))),
    { w with trace := w.trace ++ [Event.gitGlobalConfig name] })

/-- Modelled from the spec: `git.SetGlobalConfig` (package `git`, not among
the sources) writes one key of the persisted global configuration and
nothing else. -/
def gitSetGlobalConfig (name value : String) : Prog Unit := fun w =>
  (Outcome.ret (),
    { w with
      gitGlobal := (name, value) :: w.gitGlobal.filter (fun kv => kv.1 != name)
      trace := w.trace ++ [Event.gitSetGlobalConfig name value] })

/-- Modelled from the spec: the comparison `utils.IsOption` (package `utils`,
not among the sources) applies to a token: equality regardless of case,
here equality after lower-casing the letters `A` to `Z`. -/
def equalFold (s t : String) : Bool :=
  s.data.map Char.toLower == t.data.map Char.toLower

/-- Modelled from the spec: `utils.IsOption` (package `utils`, not among the
sources) accepts a token that equals the short or the long form of an
option, case-insensitively. -/
def IsOption (confirm short long : String) : Bool :=
  equalFold confirm short || equalFold confirm long

/-- Modelled from the spec: `utils.Check` (package `utils`, not among the
sources) does nothing for a nil error; otherwise it shows the error to the
user and aborts the flow, the process exiting with status 1. -/
def Check (err : Option GoError) : Prog Unit :=
  match err with
  | none => pure ()
  | some e => do
    emit (Event.checkFailed e)
    osExit 1

/-- The token `fmt.Scan` stores in `confirm`: the next token of standard
input; `confirm` keeps its zero value when there is none. -/
def confirmToken (w : World) : String :=
  match w.stdin with
  | [] => ""
  | token :: _ => token

/-- `fmt.Scan(&confirm)`. -/
def fmtScan : Prog String := fun w =>
  (Outcome.ret (confirmToken w),
    { w with stdin := w.stdin.tail, trace := w.trace ++ [Event.scan] })

/-- `NewEditor(file, topic, message)`: the handle, or the error. -/
def NewEditor (file topic : String) (message : List Byte) :
    Prog (Option Editor × Option GoError) := fun w =>
  (match w.newEditorError with
    | some e => Outcome.ret (none, some e)
    | none => Outcome.ret (some { file := file, topic := topic, message := message }, none),
    { w with trace := w.trace ++ [Event.newEditor file topic message] })

/-- `editor.EditTitleAndBody()`. -/
def Editor.EditTitleAndBody (_editor : Editor) : Prog (String × String × Option GoError) :=
  fun w => (Outcome.ret w.editResult, { w with trace := w.trace ++ [Event.editTitleAndBody] })

/-- `editor.DeleteFile()`. -/
def Editor.DeleteFile (_editor : Editor) : Prog Unit :=
  emit Event.deleteFile

/-- Modelled from the spec: `NewProject` (declared outside this file) names
the fixed upstream project by owner, name and host. -/
def NewProject (owner name host : String) : Project :=
  { Owner := owner, Name := name, Host := host }

/-- The package constant `GitHubHost`, read from the world. -/
def readGitHubHost : Prog String := fun w => (Outcome.ret w.GitHubHost, w)

/-- `gh.CreateIssue(project, title, body, labels)` on the client of the
project's host. -/
def CreateIssue (project : Project) (title body : String) (labels : List String) :
    Prog (Option Issue × Option GoError) := fun w =>
  (match w.createIssueResult with
    | Except.ok issue => Outcome.ret (some issue, none)
    | Except.error e => Outcome.ret (none, some e),
    { w with trace := w.trace ++ [Event.createIssue project title body labels] })

/-! ## The crash-report flow -/

/-- The key of the persisted preference. -/
def hubReportCrashConfig : String := "hub.reportCrash"

/-- The owner of the project the issue is filed under. -/
def hubProjectOwner : String := "github"

/-- The name of the project the issue is filed under. -/
def hubProjectName : String := "hub"

/-- `runtimeInfo`. -/
def runtimeInfo : Prog String := fun w =>
  (Outcome.ret ("GOOS: " ++ w.GOOS ++ "\nGOARCH: " ++ w.GOARCH), w)

/-- `printError`. -/
def printError (err : GoError) (stack : List Byte) : Prog Unit := do
  emit (Event.printfError err)
  emit (Event.printlnStack stack)

/-- `reportCrashConfig`. -/
def reportCrashConfig : Prog String := do
  let mut opt ← osGetenv "HUB_REPORT_CRASH"
  if opt = "" then
    let r ← gitGlobalConfig hubReportCrashConfig
    opt := r.1
  return opt

/-- `saveReportConfiguration`. -/
def saveReportConfiguration (confirm : String) (always : Bool) : Prog Unit := do
  if always then
    gitSetGlobalConfig hubReportCrashConfig "always"
  else if IsOption confirm "e" "never" then
    gitSetGlobalConfig hubReportCrashConfig "never"

/-- The text appended to the message template. -/
def crashReportComment : String :=
  "\n# Creating crash report:\n#\n" ++
  "# This information will be posted as a new issue under jingweno/gh.\n" ++
  "# We're NOT including any information about the command that you were executing,\n" ++
  "# but knowing a little bit more about it would really help us to solve this problem.\n" ++
  "# Feel free to modify the title and the description for this issue.\n"

/-- The message template filled in by `fmt.Sprintf`. -/
def crashReportMessage (reportedError : GoError) (errType : String) (stack : List Byte)
    (info : String) : List Byte :=
  goBytes ("Crash report - " ++ reportedError.text ++ "\n\nError (" ++ errType ++ "): `" ++
    reportedError.text ++ "`\n\nStack:\n\n```\n") ++ stack ++
  goBytes ("\n```\n\nRuntime:\n\n```\n" ++ info ++ "\n```\n\n" ++ crashReportComment)

/-- `reportTitleAndBody`. -/
def reportTitleAndBody (reportedError : GoError) (stack : List Byte) :
    Prog (String × String × Option GoError) := do
  let errType := reportedError.typeName
  let message := crashReportMessage reportedError errType stack (← runtimeInfo)
  let (editor, err) ← NewEditor "CRASH_REPORT" "crash report" message
  if err ≠ none then
    return ("", "", err)
  let editor ← orPanic editor
  withDefer editor.DeleteFile editor.EditTitleAndBody

/-- `report`. -/
def report (reportedError : GoError) (stack : List Byte) : Prog Unit := do
  emit (Event.reportCalled reportedError stack)
  let (title, body, err) ← reportTitleAndBody reportedError stack
  Check err
  let project := NewProject hubProjectOwner hubProjectName (← readGitHubHost)
  let (issue, err) ← CreateIssue project title body ["Crash Report"]
  Check err
  let issue ← orPanic issue
  emit (Event.printlnURL issue.HTMLURL)

/-- The prompt of the interactive branch. -/
def confirmPrompt : String :=
  "Would you like to open an issue? ([Y]es/[N]o/[A]lways/N[e]ver): "

/-- `reportCrash`. -/
def reportCrash (err : Option GoError) : Prog Unit :=
  match err with
  | none => pure ()
  | some err => do
    let buf := makeBytes 10000
    let buf ← runtimeStack buf
    let stack ← orPanic (formatStack buf)
    let opt ← reportCrashConfig
    if opt = "always" then
      report err stack
    else if opt = "never" then
      printError err stack
    else
      printError err stack
      emit (Event.print confirmPrompt)
      let confirm ← fmtScan
      let always := IsOption confirm "a" "always"
      if always || IsOption confirm "y" "yes" then
        report err stack
      saveReportConfiguration confirm always
    osExit 1

/-- `CaptureCrash`, given what `recover()` returns. -/
def CaptureCrash (rec : Option Recovered) : Prog Unit :=
  match rec with
  | none => pure ()
  | some (Recovered.error err) => reportCrash (some err)
  | some (Recovered.string err) => reportCrash (some (errorsNew err))
  | some _ => pure ()

/-! ## What a run did, and the runs used as examples -/

/-- The events a program adds to the trace of `w`. -/
def eventsOf {α : Type} (m : Prog α) (w : World) : List Event :=
  (m w).2.trace.drop w.trace.length

/-- The number of entries into `report`. -/
def reportCalls (t : List Event) : Nat :=
  t.countP (fun ev => match ev with | Event.reportCalled _ _ => true | _ => false)

/-- The issues created, with the arguments of `CreateIssue`. -/
def issuesCreated (t : List Event) : List (Project × String × String × List String) :=
  t.filterMap (fun ev =>
    match ev with
    | Event.createIssue p title body labels => some (p, title, body, labels)
    | _ => none)

/-- The writes to the global git configuration, as key and value. -/
def configWrites (t : List Event) : List (String × String) :=
  t.filterMap (fun ev =>
    match ev with
    | Event.gitSetGlobalConfig name value => some (name, value)
    | _ => none)

/-- The number of scratch-file cleanups. -/
def cleanups (t : List Event) : Nat := t.count Event.deleteFile

/-- The buffer `reportCrash` hands to `formatStack`, formatted. -/
def crashStack (w : World) : Option (List Byte) :=
  formatStack (w.goroutineStack.take 10000 ++ (makeBytes 10000).drop w.goroutineStack.length)

/-- The value of `HUB_REPORT_CRASH` as `os.Getenv` gives it. -/
def envReportCrash (w : World) : String :=
  (w.environ.lookup "HUB_REPORT_CRASH").getD ""

/-- The message `reportTitleAndBody` hands to the editor. -/
def editorMessage (err : GoError) (stack : List Byte) (w : World) : List Byte :=
  crashReportMessage err err.typeName stack ("GOOS: " ++ w.GOOS ++ "\nGOARCH: " ++ w.GOARCH)

/-- The project `report` files the issue under. -/
def hubProject (w : World) : Project :=
  { Owner := "github", Name := "hub", Host := w.GitHubHost }

/-- The report goes through: the editor and the issue tracker both succeed. -/
def reportSucceeds (w : World) : Bool :=
  w.newEditorError.isNone && w.editResult.2.2.isNone && w.createIssueResult.toBool

/-- The events of one call of `report`. -/
def reportEvents (err : GoError) (stack : List Byte) (w : World) : List Event :=
  [Event.reportCalled err stack,
    Event.newEditor "CRASH_REPORT" "crash report" (editorMessage err stack w)] ++
  match w.newEditorError with
  | some e => [Event.checkFailed e]
  | none =>
    [Event.editTitleAndBody, Event.deleteFile] ++
    match w.editResult.2.2 with
    | some e => [Event.checkFailed e]
    | none =>
      [Event.createIssue (hubProject w) w.editResult.1 w.editResult.2.1 ["Crash Report"]] ++
      match w.createIssueResult with
      | Except.error e => [Event.checkFailed e]
      | Except.ok issue => [Event.printlnURL issue.HTMLURL]

/-- The preference `reportCrashConfig` resolves in `w`. -/
def preference (w : World) : String :=
  if envReportCrash w = "" then (w.gitGlobal.lookup hubReportCrashConfig).getD ""
  else envReportCrash w

/-- The reads `reportCrashConfig` performs in `w`. -/
def lookupEvents (w : World) : List Event :=
  if envReportCrash w = "" then
    [Event.getenv "HUB_REPORT_CRASH", Event.gitGlobalConfig hubReportCrashConfig]
  else [Event.getenv "HUB_REPORT_CRASH"]

/-- The value `saveReportConfiguration` writes, if any. -/
def savedValue (confirm : String) (always : Bool) : Option String :=
  if always then some "always"
  else if IsOption confirm "e" "never" then some "never"
  else none

/-- The events up to the dispatch on the preference. -/
def captureEvents (w : World) : List Event :=
  Event.runtimeStack 10000 :: lookupEvents w

/-- The events of the interactive branch up to the answer. -/
def promptEvents (err : GoError) (stack : List Byte) : List Event :=
  [Event.printfError err, Event.printlnStack stack, Event.print confirmPrompt, Event.scan]

/-- A short goroutine stack: a header, two frames of the capture machinery
and one frame of the caller, as lines `g`, `1`, `2`, `3`, `4`, `m`. -/
def sampleStack : List Byte := [103, 10, 49, 10, 50, 10, 51, 10, 52, 10, 109, 10]

/-- The crash the sample runs report. -/
def sampleCrash : GoError := errorsNew "boom"

/-- A world with no preference set, in which editor and issue tracker
succeed and the user types `token`. -/
def promptWorld (token : String) : World :=
  { environ := [], gitGlobal := [], GitHubHost := "github.com", GOOS := "linux",
    GOARCH := "amd64", goroutineStack := sampleStack, stdin := [token],
    newEditorError := none, editResult := ("title", "body", none),
    createIssueResult := Except.ok { HTMLURL := "https://github.com/github/hub/issues/1" },
    trace := [] }

/-- The user answers `a`, and no editor can be started. -/
def editorFailsWorld : World :=
  { promptWorld "a" with newEditorError := some (errorsNew "no editor") }

/-- The override is `foo`, the persisted preference is `always`. -/
def overrideWorld : World :=
  { promptWorld "" with
    environ := [("HUB_REPORT_CRASH", "foo")], gitGlobal := [("hub.reportCrash", "always")] }

/-! ## Running the pieces -/

theorem makeBytes_length (n : Nat) : (makeBytes n).length = n := by
  simp [makeBytes]

theorem bind_run {α β : Type} (m : Prog α) (f : α → Prog β) (w : World) :
    (m >>= f) w =
      match m w with
      | (Outcome.ret a, w1) => f a w1
      | (Outcome.exit code, w1) => (Outcome.exit code, w1)
      | (Outcome.panic, w1) => (Outcome.panic, w1) := rfl

theorem pure_run {α : Type} (a : α) (w : World) : (pure a : Prog α) w = (Outcome.ret a, w) := rfl

theorem reportCrashConfig_env (w : World) (h : envReportCrash w ≠ "") :
    reportCrashConfig w =
      (Outcome.ret (envReportCrash w),
        { w with trace := w.trace ++ [Event.getenv "HUB_REPORT_CRASH"] }) := by
  unfold envReportCrash at h
  simp [reportCrashConfig, bind_run, osGetenv, pure_run, h, envReportCrash]

theorem reportCrashConfig_git (w : World) (h : envReportCrash w = "") :
    reportCrashConfig w =
      (Outcome.ret ((w.gitGlobal.lookup hubReportCrashConfig).getD ""),
        { w with trace := w.trace ++
            [Event.getenv "HUB_REPORT_CRASH", Event.gitGlobalConfig hubReportCrashConfig] }) := by
  unfold envReportCrash at h
  cases hc : w.gitGlobal.lookup hubReportCrashConfig <;>
    simp [reportCrashConfig, bind_run, osGetenv, pure_run, h, gitGlobalConfig, hc]

theorem reportTitleAndBody_newEditor_fails (err : GoError) (stack : List Byte) (w : World)
    (e : GoError) (h : w.newEditorError = some e) :
    reportTitleAndBody err stack w =
      (Outcome.ret ("", "", some e),
        { w with trace := w.trace ++
            [Event.newEditor "CRASH_REPORT" "crash report" (editorMessage err stack w)] }) := by
  simp [reportTitleAndBody, bind_run, runtimeInfo, NewEditor, h, pure_run, editorMessage]

theorem reportTitleAndBody_edited (err : GoError) (stack : List Byte) (w : World)
    (h : w.newEditorError = none) :
    reportTitleAndBody err stack w =
      (Outcome.ret w.editResult,
        { w with trace := w.trace ++
            [Event.newEditor "CRASH_REPORT" "crash report" (editorMessage err stack w),
              Event.editTitleAndBody, Event.deleteFile] }) := by
  simp [reportTitleAndBody, bind_run, runtimeInfo, NewEditor, h, pure_run, editorMessage,
    orPanic, withDefer, Editor.EditTitleAndBody, Editor.DeleteFile, emit]

theorem report_run (err : GoError) (stack : List Byte) (w : World) :
    report err stack w =
      (if reportSucceeds w then Outcome.ret () else Outcome.exit 1,
        { w with trace := w.trace ++ reportEvents err stack w }) := by
  rcases w with ⟨env, cfg, host, goos, goarch, gs, stdin, ne, ⟨t, b, ee⟩, ci, tr⟩
  rcases ne with _ | ne
  · rcases ee with _ | ee
    · rcases ci with ci | ci <;>
        simp [report, bind_run, emit, reportTitleAndBody_edited, Check, pure_run, CreateIssue,
          readGitHubHost, NewProject, hubProjectOwner, hubProjectName, osExit, orPanic, reportSucceeds,
          reportEvents, hubProject, editorMessage, Except.toBool]
    · simp [report, bind_run, emit, reportTitleAndBody_edited, Check, pure_run, CreateIssue,
          readGitHubHost, NewProject, hubProjectOwner, hubProjectName, osExit, orPanic, reportSucceeds,
          reportEvents, hubProject, editorMessage, Except.toBool]
  · simp [report, bind_run, emit, reportTitleAndBody_newEditor_fails _ _ _ ne, Check, pure_run,
      osExit, reportSucceeds, reportEvents, editorMessage]

theorem reportCrashConfig_run (w : World) :
    reportCrashConfig w =
      (Outcome.ret (preference w), { w with trace := w.trace ++ lookupEvents w }) := by
  by_cases h : envReportCrash w = ""
  · rw [reportCrashConfig_git w h]; simp [preference, lookupEvents, h]
  · rw [reportCrashConfig_env w h]; simp [preference, lookupEvents, h]

theorem saveReportConfiguration_none (confirm : String) (always : Bool) (w : World)
    (h : savedValue confirm always = none) :
    saveReportConfiguration confirm always w = (Outcome.ret (), w) := by
  unfold savedValue at h
  split_ifs at h with h1 h2
  simp [saveReportConfiguration, h1, h2, pure_run]

theorem saveReportConfiguration_some (confirm : String) (always : Bool) (w : World)
    (value : String) (h : savedValue confirm always = some value) :
    saveReportConfiguration confirm always w =
      (Outcome.ret (),
        { w with
          gitGlobal := (hubReportCrashConfig, value) ::
            w.gitGlobal.filter (fun kv => kv.1 != hubReportCrashConfig)
          trace := w.trace ++ [Event.gitSetGlobalConfig hubReportCrashConfig value] }) := by
  unfold savedValue at h
  split_ifs at h with h1 h2
  · cases h; simp [saveReportConfiguration, h1, gitSetGlobalConfig]
  · cases h; simp [saveReportConfiguration, h1, h2, gitSetGlobalConfig]

theorem reportCrash_nil (w : World) : reportCrash none w = (Outcome.ret (), w) := rfl

theorem reportCrash_panics (err : GoError) (w : World) (h : crashStack w = none) :
    reportCrash (some err) w =
      (Outcome.panic, { w with trace := w.trace ++ [Event.runtimeStack 10000] }) := by
  unfold crashStack at h
  simp [reportCrash, bind_run, runtimeStack, makeBytes_length, h, orPanic, goPanic]

theorem reportEvents_world (err : GoError) (stack : List Byte) (w : World)
    (input : List String) (t : List Event) :
    reportEvents err stack { w with stdin := input, trace := t } = reportEvents err stack w := rfl

theorem reportSucceeds_world (w : World) (input : List String) (t : List Event) :
    reportSucceeds { w with stdin := input, trace := t } = reportSucceeds w := rfl

theorem preference_world (w : World) (input : List String) (t : List Event) :
    preference { w with stdin := input, trace := t } = preference w := rfl

theorem lookupEvents_world (w : World) (input : List String) (t : List Event) :
    lookupEvents { w with stdin := input, trace := t } = lookupEvents w := rfl

theorem confirmToken_world (w : World) (t : List Event) :
    confirmToken { w with trace := t } = confirmToken w := rfl

theorem runtimeStack_run (w : World) :
    runtimeStack (makeBytes 10000) w =
      (Outcome.ret (w.goroutineStack.take 10000 ++
          (makeBytes 10000).drop w.goroutineStack.length),
        { w with trace := w.trace ++ [Event.runtimeStack 10000] }) := by
  simp [runtimeStack, makeBytes_length]

theorem reportCrash_always (err : GoError) (stack : List Byte) (w : World)
    (h : crashStack w = some stack) (hp : preference w = "always") :
    reportCrash (some err) w =
      (Outcome.exit 1,
        { w with trace := w.trace ++ (captureEvents w ++ reportEvents err stack w) }) := by
  unfold crashStack at h
  simp only [reportCrash, bind_run, runtimeStack_run, h, orPanic, pure_run,
    reportCrashConfig_run, preference_world, hp, if_true, report_run, reportSucceeds_world,
    reportEvents_world, lookupEvents_world, captureEvents]
  by_cases hs : reportSucceeds w = true <;> simp [hs, osExit]

theorem reportCrash_never (err : GoError) (stack : List Byte) (w : World)
    (h : crashStack w = some stack) (hp : preference w = "never") :
    reportCrash (some err) w =
      (Outcome.exit 1,
        { w with trace := w.trace ++
            (captureEvents w ++ [Event.printfError err, Event.printlnStack stack]) }) := by
  unfold crashStack at h
  simp only [reportCrash, bind_run, runtimeStack_run, h, orPanic, pure_run,
    reportCrashConfig_run, preference_world, hp, printError, emit, captureEvents,
    lookupEvents_world]
  simp [bind_run, emit, osExit]

theorem reportCrash_prompt_declined (err : GoError) (stack : List Byte) (w : World)
    (h : crashStack w = some stack) (hp1 : preference w ≠ "always")
    (hp2 : preference w ≠ "never")
    (hc : (IsOption (confirmToken w) "a" "always" || IsOption (confirmToken w) "y" "yes") = false) :
    reportCrash (some err) w =
      match savedValue (confirmToken w) false with
      | none =>
        (Outcome.exit 1,
          { w with
            stdin := w.stdin.tail
            trace := w.trace ++ (captureEvents w ++ promptEvents err stack) })
      | some value =>
        (Outcome.exit 1,
          { w with
            stdin := w.stdin.tail
            gitGlobal := (hubReportCrashConfig, value) ::
              w.gitGlobal.filter (fun kv => kv.1 != hubReportCrashConfig)
            trace := w.trace ++ (captureEvents w ++ promptEvents err stack ++
              [Event.gitSetGlobalConfig hubReportCrashConfig value]) }) := by
  unfold crashStack at h
  have ha : IsOption (confirmToken w) "a" "always" = false := by
    cases hx : IsOption (confirmToken w) "a" "always" <;> simp_all
  have hy : IsOption (confirmToken w) "y" "yes" = false := by
    cases hx : IsOption (confirmToken w) "y" "yes" <;> simp_all
  simp only [reportCrash, bind_run, runtimeStack_run, h, orPanic, pure_run,
    reportCrashConfig_run, preference_world, hp1, hp2, if_false, printError, emit, fmtScan,
    captureEvents, lookupEvents_world, confirmToken_world, hc, ha]
  cases hv : savedValue (confirmToken w) false with
  | none =>
    simp [hy, bind_run, pure_run, saveReportConfiguration_none _ _ _ hv, osExit, promptEvents]
  | some value =>
    simp [hy, bind_run, pure_run, saveReportConfiguration_some _ _ _ _ hv, osExit, promptEvents]

theorem reportCrash_prompt_report_fails (err : GoError) (stack : List Byte) (w : World)
    (h : crashStack w = some stack) (hp1 : preference w ≠ "always")
    (hp2 : preference w ≠ "never")
    (hc : (IsOption (confirmToken w) "a" "always" || IsOption (confirmToken w) "y" "yes") = true)
    (hs : reportSucceeds w = false) :
    reportCrash (some err) w =
      (Outcome.exit 1,
        { w with
          stdin := w.stdin.tail
          trace := w.trace ++
            (captureEvents w ++ promptEvents err stack ++ reportEvents err stack w) }) := by
  unfold crashStack at h
  simp only [reportCrash, bind_run, runtimeStack_run, h, orPanic, pure_run,
    reportCrashConfig_run, preference_world, hp1, hp2, if_false, printError, emit, fmtScan,
    captureEvents, lookupEvents_world, confirmToken_world, hc, if_true, report_run,
    reportSucceeds_world, reportEvents_world, hs]
  simp [promptEvents]

theorem reportCrash_prompt_reported (err : GoError) (stack : List Byte) (w : World)
    (h : crashStack w = some stack) (hp1 : preference w ≠ "always")
    (hp2 : preference w ≠ "never")
    (hc : (IsOption (confirmToken w) "a" "always" || IsOption (confirmToken w) "y" "yes") = true)
    (hs : reportSucceeds w = true) :
    reportCrash (some err) w =
      match savedValue (confirmToken w) (IsOption (confirmToken w) "a" "always") with
      | none =>
        (Outcome.exit 1,
          { w with
            stdin := w.stdin.tail
            trace := w.trace ++
              (captureEvents w ++ promptEvents err stack ++ reportEvents err stack w) })
      | some value =>
        (Outcome.exit 1,
          { w with
            stdin := w.stdin.tail
            gitGlobal := (hubReportCrashConfig, value) ::
              w.gitGlobal.filter (fun kv => kv.1 != hubReportCrashConfig)
            trace := w.trace ++
              (captureEvents w ++ promptEvents err stack ++ reportEvents err stack w ++
                [Event.gitSetGlobalConfig hubReportCrashConfig value]) }) := by
  unfold crashStack at h
  simp only [reportCrash, bind_run, runtimeStack_run, h, orPanic, pure_run,
    reportCrashConfig_run, preference_world, hp1, hp2, if_false, printError, emit, fmtScan,
    captureEvents, lookupEvents_world, confirmToken_world, hc, if_true, report_run,
    reportSucceeds_world, reportEvents_world, hs]
  cases hv : savedValue (confirmToken w) (IsOption (confirmToken w) "a" "always") with
  | none =>
    simp [bind_run, pure_run, saveReportConfiguration_none _ _ _ hv, osExit, promptEvents]
  | some value =>
    simp [bind_run, pure_run, saveReportConfiguration_some _ _ _ _ hv, osExit, promptEvents]

/-! ## `formatStack`: lines in, lines out -/

theorem stringsSplit_ne_nil (sep : Byte) (s : List Byte) : stringsSplit sep s ≠ [] := by
  cases s with
  | nil => simp [stringsSplit]
  | cons b rest =>
    unfold stringsSplit
    split_ifs
    · simp
    · split <;> simp

theorem stringsSplit_not_mem (sep : Byte) (s : List Byte) :
    ∀ piece ∈ stringsSplit sep s, sep ∉ piece := by
  induction s with
  | nil => simp [stringsSplit]
  | cons b rest ih =>
    intro piece hp
    unfold stringsSplit at hp
    split_ifs at hp with hb
    · rcases List.mem_cons.1 hp with h | h
      · simp [h]
      · exact ih piece h
    · split at hp
      · rename_i hnil
        exact absurd hnil (stringsSplit_ne_nil sep rest)
      · rename_i p ps hsplit
        rcases List.mem_cons.1 hp with h | h
        · subst h
          have hin : sep ∉ p := ih p (by simp [hsplit])
          intro hmem
          rcases List.mem_cons.1 hmem with h1 | h1
          · exact hb h1.symm
          · exact hin h1
        · exact ih piece (by simp [hsplit, h])

theorem stringsSplit_append_sep (sep : Byte) (x rest : List Byte) (hx : sep ∉ x) :
    stringsSplit sep (x ++ sep :: rest) = x :: stringsSplit sep rest := by
  induction x with
  | nil => simp [stringsSplit]
  | cons b x ih =>
    have hb : b ≠ sep := fun h => hx (by simp [h])
    have hx1 : sep ∉ x := fun h => hx (List.mem_cons_of_mem _ h)
    simp [stringsSplit, hb, ih hx1]

theorem stringsSplit_of_not_mem (sep : Byte) (x : List Byte) (hx : sep ∉ x) :
    stringsSplit sep x = [x] := by
  induction x with
  | nil => simp [stringsSplit]
  | cons b x ih =>
    have hb : b ≠ sep := fun h => hx (by simp [h])
    have hx1 : sep ∉ x := fun h => hx (List.mem_cons_of_mem _ h)
    simp [stringsSplit, hb, ih hx1]

theorem stringsSplit_stringsJoin (sep : Byte) (elems : List (List Byte)) (hne : elems ≠ [])
    (h : ∀ e ∈ elems, sep ∉ e) : stringsSplit sep (stringsJoin sep elems) = elems := by
  induction elems with
  | nil => exact absurd rfl hne
  | cons e rest ih =>
    cases rest with
    | nil => simpa [stringsJoin] using stringsSplit_of_not_mem sep e (h e (by simp))
    | cons f rest =>
      have he : sep ∉ e := h e (by simp)
      have hrest : ∀ x ∈ f :: rest, sep ∉ x := fun x hx => h x (List.mem_cons_of_mem _ hx)
      simp only [stringsJoin]
      rw [stringsSplit_append_sep sep e _ he, ih (by simp) hrest]

theorem formatStack_of_lines (buf : List Byte) (h : 5 ≤ (stringsSplit lf (bytesTrim buf nul)).length) :
    formatStack buf =
      some (stringsJoin lf ((stringsSplit lf (bytesTrim buf nul)).take 1 ++
        (stringsSplit lf (bytesTrim buf nul)).drop 5)) := by
  have h1 : 1 ≤ (stringsSplit lf (bytesTrim buf nul)).length := by omega
  simp [formatStack, sliceRange, sliceFrom, h, h1]

theorem trimRightByte_append_replicate (s : List Byte) (c : Byte) (n : Nat) :
    trimRightByte (s ++ List.replicate n c) c = trimRightByte s c := by
  have h : ∀ (m : Nat) (r : List Byte),
      List.dropWhile (fun b => b == c) (List.replicate m c ++ r) =
        List.dropWhile (fun b => b == c) r := by
    intro m r
    induction m with
    | zero => rfl
    | succ m ih => simp [List.replicate_succ, List.dropWhile, ih]
  simp [trimRightByte, h]

theorem formatStack_append_replicate_nul (s : List Byte) (n : Nat) :
    formatStack (s ++ List.replicate n nul) = formatStack s := by
  simp [formatStack, bytesTrim, trimRightByte_append_replicate]

/-! ## Reading the trace of a run -/

theorem eventsOf_eq {α : Type} (m : Prog α) (w w1 : World) (o : Outcome α) (evs : List Event)
    (h : m w = (o, w1)) (ht : w1.trace = w.trace ++ evs) : eventsOf m w = evs := by
  simp [eventsOf, h, ht]

theorem reportCalls_append (a b : List Event) :
    reportCalls (a ++ b) = reportCalls a + reportCalls b := by
  simp [reportCalls]

theorem issuesCreated_append (a b : List Event) :
    issuesCreated (a ++ b) = issuesCreated a ++ issuesCreated b := by
  simp [issuesCreated]

theorem configWrites_append (a b : List Event) :
    configWrites (a ++ b) = configWrites a ++ configWrites b := by
  simp [configWrites]

theorem reportCalls_captureEvents (w : World) : reportCalls (captureEvents w) = 0 := by
  unfold captureEvents lookupEvents
  split_ifs <;> simp [reportCalls]

theorem issuesCreated_captureEvents (w : World) : issuesCreated (captureEvents w) = [] := by
  unfold captureEvents lookupEvents
  split_ifs <;> simp [issuesCreated]

theorem configWrites_captureEvents (w : World) : configWrites (captureEvents w) = [] := by
  unfold captureEvents lookupEvents
  split_ifs <;> simp [configWrites]

theorem reportCalls_promptEvents (err : GoError) (stack : List Byte) :
    reportCalls (promptEvents err stack) = 0 := by
  simp [promptEvents, reportCalls]

theorem issuesCreated_promptEvents (err : GoError) (stack : List Byte) :
    issuesCreated (promptEvents err stack) = [] := by
  simp [promptEvents, issuesCreated]

theorem configWrites_promptEvents (err : GoError) (stack : List Byte) :
    configWrites (promptEvents err stack) = [] := by
  simp [promptEvents, configWrites]

theorem reportCalls_reportEvents (err : GoError) (stack : List Byte) (w : World) :
    reportCalls (reportEvents err stack w) = 1 := by
  unfold reportEvents
  rcases w.newEditorError with _ | e
  · rcases w.editResult.2.2 with _ | e
    · rcases w.createIssueResult with e | issue <;> simp [reportCalls]
    · simp [reportCalls]
  · simp [reportCalls]

theorem configWrites_reportEvents (err : GoError) (stack : List Byte) (w : World) :
    configWrites (reportEvents err stack w) = [] := by
  unfold reportEvents
  rcases w.newEditorError with _ | e
  · rcases w.editResult.2.2 with _ | e
    · rcases w.createIssueResult with e | issue <;> simp [configWrites]
    · simp [configWrites]
  · simp [configWrites]

theorem issuesCreated_reportEvents_ok (err : GoError) (stack : List Byte) (w : World)
    (hnew : w.newEditorError = none) (hedit : w.editResult.2.2 = none) :
    issuesCreated (reportEvents err stack w) =
      [(hubProject w, w.editResult.1, w.editResult.2.1, ["Crash Report"])] := by
  unfold reportEvents
  rw [hnew, hedit]
  rcases w.createIssueResult with e | issue <;> simp [issuesCreated]

theorem issuesCreated_reportEvents_newEditor_fails (err : GoError) (stack : List Byte)
    (w : World) (e : GoError) (hnew : w.newEditorError = some e) :
    issuesCreated (reportEvents err stack w) = [] := by
  unfold reportEvents
  rw [hnew]
  simp [issuesCreated]

theorem issuesCreated_reportEvents_edit_fails (err : GoError) (stack : List Byte)
    (w : World) (e : GoError) (hnew : w.newEditorError = none) (hedit : w.editResult.2.2 = some e) :
    issuesCreated (reportEvents err stack w) = [] := by
  unfold reportEvents
  rw [hnew, hedit]
  simp [issuesCreated]

theorem preference_of_run (w : World) (pref : String)
    (h : (reportCrashConfig w).1 = Outcome.ret pref) : preference w = pref := by
  rw [reportCrashConfig_run] at h
  simpa using h

theorem crashStack_of_short (w : World) (h : w.goroutineStack.length ≤ 10000) :
    crashStack w = formatStack w.goroutineStack := by
  unfold crashStack
  rw [List.take_of_length_le h, makeBytes, List.drop_replicate, formatStack_append_replicate_nul]

/-! ## Case-insensitive tokens -/

theorem equalFold_iff (s t : String) :
    equalFold s t = true ↔ s.data.map Char.toLower = t.data.map Char.toLower := by
  simp [equalFold]

theorem IsOption_iff (confirm short long : String) :
    IsOption confirm short long = true ↔
      (equalFold confirm short = true ∨ equalFold confirm long = true) := by
  simp [IsOption]

theorem accepted_iff (token : String) :
    (∃ o ∈ ["a", "always", "y", "yes"], equalFold token o = true) ↔
      (IsOption token "a" "always" || IsOption token "y" "yes") = true := by
  simp [IsOption, or_assoc]

theorem not_reporting_of_IsOption_never (token : String)
    (h : IsOption token "e" "never" = true) :
    (IsOption token "a" "always" || IsOption token "y" "yes") = false := by
  have hne : ∀ o ∈ ["a", "always", "y", "yes"], ∀ n ∈ ["e", "never"],
      o.data.map Char.toLower ≠ n.data.map Char.toLower := by decide
  by_contra hc
  rw [Bool.not_eq_false, ← accepted_iff] at hc
  obtain ⟨o, ho, hoeq⟩ := hc
  rw [IsOption_iff] at h
  rw [equalFold_iff] at hoeq
  rcases h with h | h <;> rw [equalFold_iff] at h
  · exact hne o ho "e" (by simp) (hoeq.symm.trans h)
  · exact hne o ho "never" (by simp) (hoeq.symm.trans h)

theorem crashStack_promptWorld (token : String) :
    crashStack (promptWorld token) = some [103, 10, 109, 10] := by
  have hs : (promptWorld token).goroutineStack = sampleStack := rfl
  rw [crashStack_of_short _ (by rw [hs]; decide), hs]
  decide

theorem crashStack_editorFailsWorld :
    crashStack editorFailsWorld = some [103, 10, 109, 10] := by
  rw [crashStack_of_short _ (by decide)]
  decide

theorem not_mem_captureEvents (w : World) (ev : Event)
    (h1 : ev ≠ Event.runtimeStack 10000) (h2 : ev ≠ Event.getenv "HUB_REPORT_CRASH")
    (h3 : ev ≠ Event.gitGlobalConfig hubReportCrashConfig) : ev ∉ captureEvents w := by
  unfold captureEvents lookupEvents
  split_ifs <;> simp [h1, h2, h3]

theorem not_mem_reportEvents (err : GoError) (stack : List Byte) (w : World) (ev : Event)
    (h : match ev with
      | Event.printfError _ => True
      | Event.printlnStack _ => True
      | Event.print _ => True
      | Event.scan => True
      | Event.gitSetGlobalConfig _ _ => True
      | _ => False) : ev ∉ reportEvents err stack w := by
  unfold reportEvents
  rcases w.newEditorError with _ | e
  · rcases w.editResult.2.2 with _ | e
    · rcases w.createIssueResult with e | issue <;> cases ev <;> simp_all
    · cases ev <;> simp_all
  · cases ev <;> simp_all

/-! ## The claims -/

/-- C1: in the prompt branch, with editor and issue tracker succeeding,
`report` is entered once and one issue is created when the token equals
`a`, `always`, `y` or `yes` up to case, and neither happens for any other
token. -/
theorem reportCrash_prompt_reports_iff_accepted (w : World) (err : GoError)
    (stack : List Byte) (pref : String) (issue : Issue)
    (hstack : crashStack w = some stack)
    (hpref : (reportCrashConfig w).1 = Outcome.ret pref)
    (hp1 : pref ≠ "always") (hp2 : pref ≠ "never")
    (hnew : w.newEditorError = none) (hedit : w.editResult.2.2 = none)
    (hissue : w.createIssueResult = Except.ok issue) :
    reportCalls (eventsOf (reportCrash (some err)) w) =
        (if ∃ o ∈ ["a", "always", "y", "yes"], equalFold (confirmToken w) o = true
          then 1 else 0) ∧
      (issuesCreated (eventsOf (reportCrash (some err)) w)).length =
        (if ∃ o ∈ ["a", "always", "y", "yes"], equalFold (confirmToken w) o = true
          then 1 else 0) := by
  have hp := preference_of_run w pref hpref
  subst hp
  have hs : reportSucceeds w = true := by
    simp [reportSucceeds, hnew, hedit, hissue, Except.toBool]
  by_cases hc : (IsOption (confirmToken w) "a" "always" ||
      IsOption (confirmToken w) "y" "yes") = true
  · have hacc := (accepted_iff (confirmToken w)).2 hc
    have hrun := reportCrash_prompt_reported err stack w hstack hp1 hp2 hc hs
    rw [if_pos hacc]
    cases hv : savedValue (confirmToken w) (IsOption (confirmToken w) "a" "always") with
    | none =>
      rw [hv] at hrun
      rw [eventsOf_eq _ _ _ _ _ hrun rfl]
      simp [reportCalls_append, issuesCreated_append, reportCalls_captureEvents,
        reportCalls_promptEvents, reportCalls_reportEvents, issuesCreated_captureEvents,
        issuesCreated_promptEvents, issuesCreated_reportEvents_ok err stack w hnew hedit]
    | some value =>
      rw [hv] at hrun
      rw [eventsOf_eq _ _ _ _ _ hrun rfl]
      simp [reportCalls_append, issuesCreated_append, reportCalls_captureEvents,
        reportCalls_promptEvents, reportCalls_reportEvents, issuesCreated_captureEvents,
        issuesCreated_promptEvents, issuesCreated_reportEvents_ok err stack w hnew hedit]
      simp [reportCalls, issuesCreated]
  · have hacc : ¬ ∃ o ∈ ["a", "always", "y", "yes"], equalFold (confirmToken w) o = true :=
      fun h => hc ((accepted_iff (confirmToken w)).1 h)
    rw [Bool.not_eq_true] at hc
    have hrun := reportCrash_prompt_declined err stack w hstack hp1 hp2 hc
    rw [if_neg hacc]
    cases hv : savedValue (confirmToken w) false with
    | none =>
      rw [hv] at hrun
      rw [eventsOf_eq _ _ _ _ _ hrun rfl]
      simp [reportCalls_append, issuesCreated_append, reportCalls_captureEvents,
        reportCalls_promptEvents, issuesCreated_captureEvents, issuesCreated_promptEvents]
    | some value =>
      rw [hv] at hrun
      rw [eventsOf_eq _ _ _ _ _ hrun rfl]
      simp [reportCalls_append, issuesCreated_append, reportCalls_captureEvents,
        reportCalls_promptEvents, issuesCreated_captureEvents, issuesCreated_promptEvents]
      simp [reportCalls, issuesCreated]

/-- C1 at the answer `YES`: `report` is entered once and one issue is
created. -/
theorem reportCrash_prompt_reports_iff_accepted_witness :
    reportCalls (eventsOf (reportCrash (some sampleCrash)) (promptWorld "YES")) = 1 ∧
      (issuesCreated (eventsOf (reportCrash (some sampleCrash)) (promptWorld "YES"))).length
        = 1 :=
  reportCrash_prompt_reports_iff_accepted (promptWorld "YES") sampleCrash [103, 10, 109, 10] ""
    { HTMLURL := "https://github.com/github/hub/issues/1" }
    (crashStack_promptWorld "YES") rfl (by decide) (by decide) rfl rfl rfl

/-- C2, as stated, fails: the user answers `a` (always), the editor cannot
be started, and the run ends without any write to the configuration. -/
theorem reportCrash_always_answer_not_saved_when_report_fails :
    confirmToken editorFailsWorld = "a" ∧
      (reportCrashConfig editorFailsWorld).1 = Outcome.ret "" ∧
      (reportCrash (some sampleCrash) editorFailsWorld).1 = Outcome.exit 1 ∧
      configWrites (eventsOf (reportCrash (some sampleCrash)) editorFailsWorld) = [] := by
  have hrun := reportCrash_prompt_report_fails sampleCrash [103, 10, 109, 10] editorFailsWorld
    crashStack_editorFailsWorld (by decide) (by decide) (by decide) (by decide)
  refine ⟨rfl, rfl, by rw [hrun], ?_⟩
  rw [eventsOf_eq _ _ _ _ _ hrun rfl]
  simp [configWrites_append, configWrites_captureEvents, configWrites_promptEvents,
    configWrites_reportEvents]

/-- C2, amended: one run of `reportCrash` writes the configuration at most
once and only under `hub.reportCrash`: nothing when the preference is
`always` or `never`; in the prompt branch `always` when the token is `a` or
`always` up to case and the report it triggers succeeds, `never` when the
token is `e` or `never` up to case, nothing otherwise. The environment is
left as it was. -/
theorem reportCrash_config_writes (w : World) (err : GoError) (stack : List Byte)
    (pref : String) (hstack : crashStack w = some stack)
    (hpref : (reportCrashConfig w).1 = Outcome.ret pref) :
    configWrites (eventsOf (reportCrash (some err)) w) =
        (if pref = "always" ∨ pref = "never" then []
          else if equalFold (confirmToken w) "a" || equalFold (confirmToken w) "always" then
            (if w.newEditorError = none ∧ w.editResult.2.2 = none ∧
                w.createIssueResult.toBool = true
              then [("hub.reportCrash", "always")] else [])
          else if equalFold (confirmToken w) "e" || equalFold (confirmToken w) "never" then
            [("hub.reportCrash", "never")]
          else []) ∧
      (reportCrash (some err) w).2.environ = w.environ := by
  have hp := preference_of_run w pref hpref
  subst hp
  by_cases hp1 : preference w = "always"
  · have hrun := reportCrash_always err stack w hstack hp1
    rw [eventsOf_eq _ _ _ _ _ hrun rfl, hrun]
    simp [hp1, configWrites_append, configWrites_captureEvents, configWrites_reportEvents]
  by_cases hp2 : preference w = "never"
  · have hrun := reportCrash_never err stack w hstack hp2
    rw [eventsOf_eq _ _ _ _ _ hrun rfl, hrun, configWrites_append, configWrites_captureEvents]
    simp [hp2, configWrites]
  rw [if_neg (by simp [hp1, hp2])]
  have hsucc : reportSucceeds w = true ↔
      (w.newEditorError = none ∧ w.editResult.2.2 = none ∧ w.createIssueResult.toBool = true) := by
    simp [reportSucceeds, and_assoc]
  have halw : IsOption (confirmToken w) "a" "always" =
      (equalFold (confirmToken w) "a" || equalFold (confirmToken w) "always") := rfl
  have hnev : IsOption (confirmToken w) "e" "never" =
      (equalFold (confirmToken w) "e" || equalFold (confirmToken w) "never") := rfl
  rw [← halw, ← hnev]
  by_cases hc : (IsOption (confirmToken w) "a" "always" ||
      IsOption (confirmToken w) "y" "yes") = true
  · have hne : IsOption (confirmToken w) "e" "never" = false := by
      by_contra hn
      rw [Bool.not_eq_false] at hn
      rw [not_reporting_of_IsOption_never _ hn] at hc
      exact Bool.false_ne_true hc
    by_cases hs : reportSucceeds w = true
    · have hrun := reportCrash_prompt_reported err stack w hstack hp1 hp2 hc hs
      cases ha : IsOption (confirmToken w) "a" "always" with
      | true =>
        have hv : savedValue (confirmToken w) (IsOption (confirmToken w) "a" "always") =
            some "always" := by simp [savedValue, ha]
        rw [hv] at hrun
        rw [eventsOf_eq _ _ _ _ _ hrun rfl, hrun]
        rw [if_pos rfl, if_pos (hsucc.1 hs), configWrites_append, configWrites_append,
          configWrites_append, configWrites_captureEvents, configWrites_promptEvents,
          configWrites_reportEvents]
        simp [configWrites, hubReportCrashConfig]
      | false =>
        have hv : savedValue (confirmToken w) (IsOption (confirmToken w) "a" "always") =
            none := by simp [savedValue, ha, hne]
        rw [hv] at hrun
        rw [eventsOf_eq _ _ _ _ _ hrun rfl, hrun]
        simp [hne, configWrites_append, configWrites_captureEvents,
          configWrites_promptEvents, configWrites_reportEvents]
    · have hns : ¬ (w.newEditorError = none ∧ w.editResult.2.2 = none ∧
          w.createIssueResult.toBool = true) := fun h => hs (hsucc.2 h)
      rw [Bool.not_eq_true] at hs
      have hrun := reportCrash_prompt_report_fails err stack w hstack hp1 hp2 hc hs
      rw [eventsOf_eq _ _ _ _ _ hrun rfl, hrun, if_neg hns]
      simp [hne, configWrites_append, configWrites_captureEvents,
        configWrites_promptEvents, configWrites_reportEvents]
  · rw [Bool.not_eq_true] at hc
    have ha : IsOption (confirmToken w) "a" "always" = false := by
      cases hx : IsOption (confirmToken w) "a" "always" <;> simp_all
    have hrun := reportCrash_prompt_declined err stack w hstack hp1 hp2 hc
    cases hn : IsOption (confirmToken w) "e" "never" with
    | true =>
      have hv : savedValue (confirmToken w) false = some "never" := by simp [savedValue, hn]
      rw [hv] at hrun
      rw [eventsOf_eq _ _ _ _ _ hrun rfl, hrun, configWrites_append, configWrites_append,
        configWrites_captureEvents, configWrites_promptEvents]
      simp [ha, configWrites, hubReportCrashConfig]
    | false =>
      have hv : savedValue (confirmToken w) false = none := by simp [savedValue, hn]
      rw [hv] at hrun
      rw [eventsOf_eq _ _ _ _ _ hrun rfl, hrun]
      simp [ha, configWrites_append, configWrites_captureEvents, configWrites_promptEvents]

/-- C2, amended, at the answer `Never`: one write, of `never`. -/
theorem reportCrash_config_writes_witness :
    configWrites (eventsOf (reportCrash (some sampleCrash)) (promptWorld "Never")) =
        [("hub.reportCrash", "never")] ∧
      (reportCrash (some sampleCrash) (promptWorld "Never")).2.environ =
        (promptWorld "Never").environ :=
  reportCrash_config_writes (promptWorld "Never") sampleCrash [103, 10, 109, 10] ""
    (crashStack_promptWorld "Never") rfl

/-- C3: `reportCrash` dispatches on the raw preference. For `always` it
enters `report` once and neither prints the error or the stack, nor
prompts, nor reads. For `never` it prints the error and the stack and does
nothing else: no report, no prompt, no read. For every other value it
prints the error and the stack, then the prompt, then reads one token;
nothing after that prints them, prompts or reads again. -/
theorem reportCrash_dispatch (w : World) (err : GoError) (stack : List Byte) (pref : String)
    (hstack : crashStack w = some stack)
    (hpref : (reportCrashConfig w).1 = Outcome.ret pref) :
    if pref = "always" then
      reportCalls (eventsOf (reportCrash (some err)) w) = 1 ∧
        (∀ e, Event.printfError e ∉ eventsOf (reportCrash (some err)) w) ∧
        (∀ s, Event.printlnStack s ∉ eventsOf (reportCrash (some err)) w) ∧
        (∀ s, Event.print s ∉ eventsOf (reportCrash (some err)) w) ∧
        Event.scan ∉ eventsOf (reportCrash (some err)) w ∧
        (reportCrash (some err) w).2.stdin = w.stdin
    else if pref = "never" then
      eventsOf (reportCrash (some err)) w =
          captureEvents w ++ [Event.printfError err, Event.printlnStack stack] ∧
        reportCalls (eventsOf (reportCrash (some err)) w) = 0 ∧
        (∀ s, Event.print s ∉ eventsOf (reportCrash (some err)) w) ∧
        Event.scan ∉ eventsOf (reportCrash (some err)) w ∧
        (reportCrash (some err) w).2.stdin = w.stdin
    else
      ∃ rest, eventsOf (reportCrash (some err)) w =
          captureEvents w ++
            [Event.printfError err, Event.printlnStack stack,
              Event.print "Would you like to open an issue? ([Y]es/[N]o/[A]lways/N[e]ver): ",
              Event.scan] ++ rest ∧
        (∀ e, Event.printfError e ∉ rest) ∧ (∀ s, Event.printlnStack s ∉ rest) ∧
        (∀ s, Event.print s ∉ rest) ∧ Event.scan ∉ rest ∧
        (reportCrash (some err) w).2.stdin = w.stdin.tail := by
  have hp := preference_of_run w pref hpref
  subst hp
  by_cases hp1 : preference w = "always"
  · have hrun := reportCrash_always err stack w hstack hp1
    rw [if_pos hp1, eventsOf_eq _ _ _ _ _ hrun rfl, hrun]
    refine ⟨?_, ?_, ?_, ?_, ?_, rfl⟩
    · rw [reportCalls_append, reportCalls_captureEvents, reportCalls_reportEvents]
    · intro e
      simp [not_mem_captureEvents, not_mem_reportEvents]
    · intro s
      simp [not_mem_captureEvents, not_mem_reportEvents]
    · intro s
      simp [not_mem_captureEvents, not_mem_reportEvents]
    · simp [not_mem_captureEvents, not_mem_reportEvents]
  rw [if_neg hp1]
  by_cases hp2 : preference w = "never"
  · have hrun := reportCrash_never err stack w hstack hp2
    rw [if_pos hp2, eventsOf_eq _ _ _ _ _ hrun rfl, hrun]
    refine ⟨rfl, ?_, ?_, ?_, rfl⟩
    · rw [reportCalls_append, reportCalls_captureEvents]
      simp [reportCalls]
    · intro s
      simp [not_mem_captureEvents]
    · simp [not_mem_captureEvents]
  rw [if_neg hp2]
  by_cases hc : (IsOption (confirmToken w) "a" "always" ||
      IsOption (confirmToken w) "y" "yes") = true
  · by_cases hs : reportSucceeds w = true
    · have hrun := reportCrash_prompt_reported err stack w hstack hp1 hp2 hc hs
      cases hv : savedValue (confirmToken w) (IsOption (confirmToken w) "a" "always") with
      | none =>
        rw [hv] at hrun
        rw [eventsOf_eq _ _ _ _ _ hrun rfl, hrun]
        refine ⟨reportEvents err stack w, by simp [promptEvents, confirmPrompt], ?_, ?_, ?_,
          ?_, rfl⟩ <;> simp [not_mem_reportEvents]
      | some value =>
        rw [hv] at hrun
        rw [eventsOf_eq _ _ _ _ _ hrun rfl, hrun]
        refine ⟨reportEvents err stack w ++
          [Event.gitSetGlobalConfig hubReportCrashConfig value],
          by simp [promptEvents, confirmPrompt], ?_, ?_, ?_, ?_, rfl⟩ <;>
          simp [not_mem_reportEvents]
    · rw [Bool.not_eq_true] at hs
      have hrun := reportCrash_prompt_report_fails err stack w hstack hp1 hp2 hc hs
      rw [eventsOf_eq _ _ _ _ _ hrun rfl, hrun]
      refine ⟨reportEvents err stack w, by simp [promptEvents, confirmPrompt], ?_, ?_, ?_,
        ?_, rfl⟩ <;> simp [not_mem_reportEvents]
  · rw [Bool.not_eq_true] at hc
    have hrun := reportCrash_prompt_declined err stack w hstack hp1 hp2 hc
    cases hv : savedValue (confirmToken w) false with
    | none =>
      rw [hv] at hrun
      rw [eventsOf_eq _ _ _ _ _ hrun rfl, hrun]
      exact ⟨[], by simp [promptEvents, confirmPrompt], by simp, by simp, by simp, by simp, rfl⟩
    | some value =>
      rw [hv] at hrun
      rw [eventsOf_eq _ _ _ _ _ hrun rfl, hrun]
      exact ⟨[Event.gitSetGlobalConfig hubReportCrashConfig value],
        by simp [promptEvents, confirmPrompt], by simp, by simp, by simp, by simp, rfl⟩

/-- C3 at the raw preference `Always`, a case variant: the run prompts. -/
theorem reportCrash_dispatch_witness :
    ∃ rest, eventsOf (reportCrash (some sampleCrash))
          { promptWorld "n" with gitGlobal := [("hub.reportCrash", "Always")] } =
        captureEvents { promptWorld "n" with gitGlobal := [("hub.reportCrash", "Always")] } ++
          [Event.printfError sampleCrash, Event.printlnStack [103, 10, 109, 10],
            Event.print "Would you like to open an issue? ([Y]es/[N]o/[A]lways/N[e]ver): ",
            Event.scan] ++ rest ∧
      (∀ e, Event.printfError e ∉ rest) ∧ (∀ s, Event.printlnStack s ∉ rest) ∧
      (∀ s, Event.print s ∉ rest) ∧ Event.scan ∉ rest ∧
      (reportCrash (some sampleCrash)
          { promptWorld "n" with gitGlobal := [("hub.reportCrash", "Always")] }).2.stdin =
        ({ promptWorld "n" with gitGlobal := [("hub.reportCrash", "Always")] } : World).stdin.tail :=
  reportCrash_dispatch { promptWorld "n" with gitGlobal := [("hub.reportCrash", "Always")] }
    sampleCrash [103, 10, 109, 10] "Always"
    (by rw [crashStack_of_short _ (by decide)]; decide) rfl

/-- C4: `reportCrashConfig` returns the value of `HUB_REPORT_CRASH` verbatim
when it is not empty, whatever the configuration holds; when it is empty or
unset, the value persisted under `hub.reportCrash`, and the empty string
when that key is absent. -/
theorem reportCrashConfig_resolution (w : World) :
    (reportCrashConfig w).1 =
      Outcome.ret
        (match w.environ.lookup "HUB_REPORT_CRASH", w.gitGlobal.lookup "hub.reportCrash" with
          | some e, some c => if e = "" then c else e
          | some e, none => if e = "" then "" else e
          | none, some c => c
          | none, none => "") := by
  rw [reportCrashConfig_run]
  simp only [preference, envReportCrash, hubReportCrashConfig]
  rcases w.environ.lookup "HUB_REPORT_CRASH" with _ | e <;>
    rcases w.gitGlobal.lookup "hub.reportCrash" with _ | c <;> simp

/-- C5: when the trimmed buffer splits into `n ≥ 5` lines, `formatStack`
returns line 0 followed by lines 5 to `n - 1`, joined with line feeds: the
output has `n - 4` lines, its first line is the header, and its line `i`
for `i ≥ 1` is line `i + 4` of the input. -/
theorem formatStack_keeps_header_drops_four (buf : List Byte) (lines : List (List Byte))
    (hlines : stringsSplit lf (bytesTrim buf nul) = lines) (hn : 5 ≤ lines.length) :
    ∃ out, formatStack buf = some out ∧
      out = stringsJoin lf (lines.take 1 ++ lines.drop 5) ∧
      (stringsSplit lf out).length = lines.length - 4 ∧
      (stringsSplit lf out)[0]? = lines[0]? ∧
      ∀ i, 1 ≤ i → (stringsSplit lf out)[i]? = lines[i + 4]? := by
  have hfree : ∀ e ∈ lines.take 1 ++ lines.drop 5, lf ∉ e := by
    intro e he
    have hmem : e ∈ lines := by
      rcases List.mem_append.1 he with h | h
      · exact List.mem_of_mem_take h
      · exact List.mem_of_mem_drop h
    rw [← hlines] at hmem
    exact stringsSplit_not_mem lf _ e hmem
  have hne : lines.take 1 ++ lines.drop 5 ≠ [] := by
    intro h
    have hlen := congrArg List.length h
    rw [List.length_append, List.length_take, List.length_drop, List.length_nil] at hlen
    omega
  have hsplit := stringsSplit_stringsJoin lf _ hne hfree
  refine ⟨stringsJoin lf (lines.take 1 ++ lines.drop 5), ?_, rfl, ?_, ?_, ?_⟩
  · rw [← hlines] at hn ⊢
    exact formatStack_of_lines buf hn
  · rw [hsplit]
    simp
    omega
  · rw [hsplit]
    match lines, hn with
    | _ :: _ :: _ :: _ :: _ :: _, _ => simp
  · intro i hi
    rw [hsplit]
    obtain ⟨j, rfl⟩ : ∃ j, i = j + 1 := ⟨i - 1, by omega⟩
    match lines, hn with
    | _ :: _ :: _ :: _ :: _ :: _, _ => simp

/-- C5 at the buffer `g\n1\n2\n3\n4\nm\n` with null padding: the output is
`g\nm\n`. -/
theorem formatStack_keeps_header_drops_four_witness :
    ∃ out, formatStack (sampleStack ++ [0, 0, 0]) = some out ∧
      out = stringsJoin lf
        (([[103], [49], [50], [51], [52], [109], []] : List (List Byte)).take 1 ++
          ([[103], [49], [50], [51], [52], [109], []] : List (List Byte)).drop 5) ∧
      (stringsSplit lf out).length =
        ([[103], [49], [50], [51], [52], [109], []] : List (List Byte)).length - 4 ∧
      (stringsSplit lf out)[0]? =
        ([[103], [49], [50], [51], [52], [109], []] : List (List Byte))[0]? ∧
      ∀ i, 1 ≤ i → (stringsSplit lf out)[i]? =
        ([[103], [49], [50], [51], [52], [109], []] : List (List Byte))[i + 4]? :=
  formatStack_keeps_header_drops_four (sampleStack ++ [0, 0, 0])
    [[103], [49], [50], [51], [52], [109], []] (by decide) (by decide)

/-- C6: a run of `reportCrash` on a non-nil error ends in `os.Exit(1)`,
whatever the preference, the token, and the outcome of editor and issue
tracker, once the captured stack has the five lines `formatStack` needs. -/
theorem reportCrash_exits_with_1 (w : World) (err : GoError) (stack : List Byte)
    (hstack : crashStack w = some stack) :
    (reportCrash (some err) w).1 = Outcome.exit 1 := by
  by_cases hp1 : preference w = "always"
  · rw [reportCrash_always err stack w hstack hp1]
  by_cases hp2 : preference w = "never"
  · rw [reportCrash_never err stack w hstack hp2]
  by_cases hc : (IsOption (confirmToken w) "a" "always" ||
      IsOption (confirmToken w) "y" "yes") = true
  · by_cases hs : reportSucceeds w = true
    · rw [reportCrash_prompt_reported err stack w hstack hp1 hp2 hc hs]
      cases savedValue (confirmToken w) (IsOption (confirmToken w) "a" "always") <;> rfl
    · rw [Bool.not_eq_true] at hs
      rw [reportCrash_prompt_report_fails err stack w hstack hp1 hp2 hc hs]
  · rw [Bool.not_eq_true] at hc
    rw [reportCrash_prompt_declined err stack w hstack hp1 hp2 hc]
    cases savedValue (confirmToken w) false <;> rfl

/-- C6 at a run in which the editor fails: exit status 1. -/
theorem reportCrash_exits_with_1_witness :
    (reportCrash (some sampleCrash) editorFailsWorld).1 = Outcome.exit 1 :=
  reportCrash_exits_with_1 editorFailsWorld sampleCrash [103, 10, 109, 10]
    crashStack_editorFailsWorld

/-- C7: `CaptureCrash` hands an error to `reportCrash` as it is and a string
`s` as a new error with text `s`; any other recovered value, and no
recovered value, leave the world untouched and return; so does `reportCrash`
on a nil error. -/
theorem CaptureCrash_normalizes (w : World) :
    (∀ err, CaptureCrash (some (Recovered.error err)) w = reportCrash (some err) w) ∧
      (∀ s, CaptureCrash (some (Recovered.string s)) w = reportCrash (some (errorsNew s)) w ∧
        (errorsNew s).text = s) ∧
      (∀ n, CaptureCrash (some (Recovered.int n)) w = (Outcome.ret (), w)) ∧
      (∀ name, CaptureCrash (some (Recovered.other name)) w = (Outcome.ret (), w)) ∧
      CaptureCrash none w = (Outcome.ret (), w) ∧
      reportCrash none w = (Outcome.ret (), w) ∧
      eventsOf (reportCrash none) w = [] :=
  ⟨fun _ => rfl, fun _ => ⟨rfl, rfl⟩, fun _ => rfl, fun _ => rfl, rfl, rfl,
    by simp [eventsOf, reportCrash_nil]⟩

/-- C8, as stated, fails: with the override `foo` and the persisted value
`always`, `reportCrashConfig` returns `foo`, not the persisted value. -/
theorem reportCrashConfig_unrecognized_override_kept :
    overrideWorld.environ.lookup "HUB_REPORT_CRASH" = some "foo" ∧
      overrideWorld.gitGlobal.lookup "hub.reportCrash" = some "always" ∧
      (reportCrashConfig overrideWorld).1 = Outcome.ret "foo" ∧
      (reportCrashConfig overrideWorld).1 ≠ Outcome.ret "always" := by
  refine ⟨by decide, by decide, rfl, ?_⟩
  rw [show (reportCrashConfig overrideWorld).1 = Outcome.ret "foo" from rfl]
  decide

/-- C8, amended: for the empty or unset `HUB_REPORT_CRASH` the preference
is the persisted value of `hub.reportCrash`, read from the configuration;
for every other value, recognized or not, it is that value itself and the
configuration is not read. -/
theorem reportCrashConfig_override (w : World) :
    if (w.environ.lookup "HUB_REPORT_CRASH").getD "" = "" then
      (reportCrashConfig w).1 =
          Outcome.ret ((w.gitGlobal.lookup "hub.reportCrash").getD "") ∧
        eventsOf reportCrashConfig w =
          [Event.getenv "HUB_REPORT_CRASH", Event.gitGlobalConfig "hub.reportCrash"]
    else
      (reportCrashConfig w).1 = Outcome.ret ((w.environ.lookup "HUB_REPORT_CRASH").getD "") ∧
        eventsOf reportCrashConfig w = [Event.getenv "HUB_REPORT_CRASH"] := by
  by_cases h : envReportCrash w = ""
  · have hrun := reportCrashConfig_git w h
    unfold envReportCrash at h
    rw [if_pos h, eventsOf_eq _ _ _ _ _ hrun rfl, hrun]
    exact ⟨rfl, rfl⟩
  · have hrun := reportCrashConfig_env w h
    unfold envReportCrash at h
    rw [if_neg h, eventsOf_eq _ _ _ _ _ hrun rfl, hrun]
    exact ⟨rfl, rfl⟩

/-- C10, as stated, fails: when `NewEditor` fails, `reportTitleAndBody`
returns the error without any `DeleteFile`. -/
theorem reportTitleAndBody_no_cleanup_when_newEditor_fails :
    (reportTitleAndBody sampleCrash [103, 10, 109, 10] editorFailsWorld).1 =
        Outcome.ret ("", "", some (errorsNew "no editor")) ∧
      cleanups (eventsOf (reportTitleAndBody sampleCrash [103, 10, 109, 10])
        editorFailsWorld) = 0 := by
  have hrun := reportTitleAndBody_newEditor_fails sampleCrash [103, 10, 109, 10]
    editorFailsWorld (errorsNew "no editor") rfl
  rw [eventsOf_eq _ _ _ _ _ hrun rfl, hrun]
  exact ⟨rfl, by simp [cleanups]⟩

/-- C10, amended: when `NewEditor` fails, `reportTitleAndBody` returns that
error with empty title and body and no `DeleteFile` is performed; otherwise
it returns what `EditTitleAndBody` returns, error included, and `DeleteFile`
is performed once, as its last action. In `report`, `CreateIssue` is not
called when either step failed, and is called once, for the project
`github/hub` with the edited title and body and the labels
`["Crash Report"]`, when both succeeded. -/
theorem reportTitleAndBody_cleanup (w : World) (err : GoError) (stack : List Byte) :
    match w.newEditorError with
    | some e =>
      (reportTitleAndBody err stack w).1 = Outcome.ret ("", "", some e) ∧
        cleanups (eventsOf (reportTitleAndBody err stack) w) = 0 ∧
        issuesCreated (eventsOf (report err stack) w) = []
    | none =>
      (reportTitleAndBody err stack w).1 = Outcome.ret w.editResult ∧
        cleanups (eventsOf (reportTitleAndBody err stack) w) = 1 ∧
        (eventsOf (reportTitleAndBody err stack) w).getLast? = some Event.deleteFile ∧
        issuesCreated (eventsOf (report err stack) w) =
          match w.editResult.2.2 with
          | some _ => []
          | none =>
            [({ Owner := "github", Name := "hub", Host := w.GitHubHost },
              w.editResult.1, w.editResult.2.1, ["Crash Report"])] := by
  have hreport := report_run err stack w
  rw [eventsOf_eq _ _ _ _ _ hreport rfl]
  cases hnew : w.newEditorError with
  | some e =>
    have hrun := reportTitleAndBody_newEditor_fails err stack w e hnew
    simp only []
    rw [eventsOf_eq _ _ _ _ _ hrun rfl, hrun]
    exact ⟨rfl, by simp [cleanups],
      issuesCreated_reportEvents_newEditor_fails err stack w e hnew⟩
  | none =>
    have hrun := reportTitleAndBody_edited err stack w hnew
    simp only []
    rw [eventsOf_eq _ _ _ _ _ hrun rfl, hrun]
    refine ⟨rfl, by simp [cleanups], by simp, ?_⟩
    cases hedit : w.editResult.2.2 with
    | some e => exact issuesCreated_reportEvents_edit_fails err stack w e hnew hedit
    | none => exact issuesCreated_reportEvents_ok err stack w hnew hedit

end CrashReport
